import Mathlib

/-!
Shallow embedding of the prediction-panic Convex backend
(src/convex/games.ts, src/convex/validation.ts, and the Convex schema).

The transactional document store is modelled by an explicit `DB` value
holding the two tables (`games`, `currentRounds`); every mutation handler
becomes a function `… → DB → Except Err DB`.  A thrown `ConvexError`
rolls the enclosing transaction back, so an `.error` result stands for
"nothing was committed".  Randomness (the quick-id draws and lodash
`_.sample`) and `Date.now()` are passed in as explicit parameters.
-/

namespace PredictionPanic

abbrev PlayerId := String

/-- A value of the `fullQuestions` map (validation.ts): two labeled options
and the boolean answer. -/
structure Question where
  left : String
  right : String
  answer : Bool
  deriving DecidableEq

/-- The question snapshot stored on rounds (`vRedactedQuestion` in the
schema): text plus the two labels, without the answer. -/
structure QuestionSnapshot where
  text : String
  left : String
  right : String
  deriving DecidableEq

/-- One entry of `Game.finishedRounds` (schema). -/
structure FinishedRound where
  question : QuestionSnapshot
  answer : Bool
  guesses : List (PlayerId × ℚ)
  deriving DecidableEq

/-- A row of the `games` table (schema). -/
structure Game where
  quickId : String
  started : Bool
  roundsRemaining : Int
  secondsPerQuestion : ℚ
  players : List (PlayerId × String)
  finishedRounds : List FinishedRound
  deriving DecidableEq

/-- A row of the `currentRounds` table (schema); `id` is the Convex
document id `_id`. -/
structure CurrentRound where
  id : Nat
  gameId : Nat
  question : QuestionSnapshot
  guesses : List (PlayerId × ℚ)
  endsAtMs : ℚ
  deriving DecidableEq

/-- The whole store: both tables plus the id allocator. -/
structure DB where
  games : List (Nat × Game)
  currentRounds : List CurrentRound
  nextId : Nat
  deriving DecidableEq

/-- The distinct `ConvexError`s (and JS runtime errors) the handlers can
throw. -/
inductive Err where
  | gameNotFound
  | gameNotStarted
  | gameAlreadyStarted
  | noRoundsRemaining
  | settingsAfterStart
  | questionNotFound
  | questionTextMismatch
  | notUnique
  | typeError
  | invalidArgs
  | retriesExhausted
  deriving DecidableEq

/-- The immutable question pool `fullQuestions` (validation.ts), an
association list keyed by question text. -/
abbrev Pool := List (String × Question)

/-- `fullQuestions.get(text)`. -/
def poolGet (pool : Pool) (text : String) : Option Question :=
  (pool.find? (fun e => e.1 == text)).map (fun e => e.2)

/-- `Array.from(fullQuestions.keys())`. -/
def poolTexts (pool : Pool) : List String := pool.map (fun e => e.1)

/-- `ctx.db.get(gameId)` on the `games` table. -/
def getGame (db : DB) (gid : Nat) : Option Game :=
  (db.games.find? (fun e => e.1 == gid)).map (fun e => e.2)

/-- `ctx.db.patch(gameId, …)`: replace the game record held under `gid`,
leaving the `currentRounds` table and the id allocator alone. -/
def setGame (db : DB) (gid : Nat) (g : Game) : DB :=
  { db with games := db.games.map (fun e => if e.1 == gid then (gid, g) else e) }

/-- The rows of `currentRounds` matching the `by_gameId` index at `gid`. -/
def roundsFor (db : DB) (gid : Nat) : List CurrentRound :=
  db.currentRounds.filter (fun r => r.gameId == gid)

/-- Convex `.unique()` on the `by_gameId` index: `none` when no row
matches, the row when exactly one does, a thrown error when several do. -/
def uniqueRound (db : DB) (gid : Nat) : Except Err (Option CurrentRound) :=
  match roundsFor db gid with
  | [] => .ok none
  | [r] => .ok (some r)
  | _ => .error .notUnique

/-- The rows of `games` matching the `by_quickId` index at `q`. -/
def gamesByQuickId (db : DB) (q : String) : List (Nat × Game) :=
  db.games.filter (fun e => e.2.quickId == q)

/-- Convex `.unique()` on the `by_quickId` index. -/
def uniqueGameByQuickId (db : DB) (q : String) :
    Except Err (Option (Nat × Game)) :=
  match gamesByQuickId db q with
  | [] => .ok none
  | [g] => .ok (some g)
  | _ => .error .notUnique

/-- JS object-spread upsert `{ ...m, [k]: v }`: replaces the value in place
when the key is present, otherwise appends the key at the end. -/
def upsert {α : Type} (m : List (PlayerId × α)) (k : PlayerId) (v : α) :
    List (PlayerId × α) :=
  if m.any (fun e => e.1 == k)
  then m.map (fun e => if e.1 == k then (k, v) else e)
  else m ++ [(k, v)]

/-- JS `delete obj[k]`. -/
def removeKey {α : Type} (m : List (PlayerId × α)) (k : PlayerId) :
    List (PlayerId × α) :=
  m.filter (fun e => !(e.1 == k))

def DEFAULT_N_ROUNDS : Int := 100

def DEFAULT_SECONDS_PER_QUESTION : ℚ := 6

def INTER_ROUND_DELAY : ℚ := 300

/-- `scoreGuess` (validation.ts):
`100 * (1 + Math.log2(answer ? guess : 1 - guess))`, with JS numbers
idealized as reals and `Math.log2` as the base-2 real logarithm. -/
noncomputable def scoreGuess (guess : ℝ) (answer : Bool) : ℝ :=
  100 * (1 + Real.logb 2 (if answer then guess else 1 - guess))

/-- `createGame` (games.ts).  The `do … while (quickIdTaken)` loop draws
random 4-letter codes and retries while the drawn code is taken; the draws
are modelled by the explicit candidate stream `cands`.  An exhausted finite
stream maps to an error (the source loop would keep drawing; no insert
happens until an untaken code is found). -/
def createGame (pool : Pool) (cands : List String) (playerId : PlayerId)
    (db : DB) : Except Err (DB × Nat) :=
  match cands with
  | [] => .error .retriesExhausted
  | c :: rest =>
    match uniqueGameByQuickId db c with
    | .error e => .error e
    | .ok (some _) => createGame pool rest playerId db
    | .ok none =>
      let g : Game :=
        { quickId := c
          started := false
          roundsRemaining := min DEFAULT_N_ROUNDS (pool.length : Int)
          secondsPerQuestion := DEFAULT_SECONDS_PER_QUESTION
          players := [(playerId, "")]
          finishedRounds := [] }
      .ok ({ db with
               games := db.games ++ [(db.nextId, g)]
               nextId := db.nextId + 1 }, db.nextId)

/-- `joinGame` (games.ts); the quickId argument arrives uppercased and
validated by the zod schema at the mutation boundary. -/
def joinGame (quickId : String) (playerId : PlayerId) (db : DB) :
    Except Err (DB × Nat) :=
  match uniqueGameByQuickId db quickId with
  | .error e => .error e
  | .ok none => .error .gameNotFound
  | .ok (some (gid, game)) =>
    if game.players.any (fun e => e.1 == playerId) then .ok (db, gid)
    else .ok (setGame db gid
      { game with players := game.players ++ [(playerId, "")] }, gid)

/-- `leaveGame` (games.ts). -/
def leaveGame (gid : Nat) (playerId : PlayerId) (db : DB) :
    Except Err (DB × Nat) :=
  match getGame db gid with
  | none => .error .gameNotFound
  | some game =>
    .ok (setGame db gid
      { game with players := removeKey game.players playerId }, gid)

/-- The zod `gameNumRoundsSchema` (validation.ts): an integer in
`1 .. fullQuestions.size` (integrality is carried by the `Int` type). -/
def validRounds (pool : Pool) (n : Int) : Bool :=
  decide (1 ≤ n) && decide (n ≤ (pool.length : Int))

/-- The zod `gameSecondsPerQuestionSchema` (validation.ts): a number in
`1 .. 60`. -/
def validSeconds (s : ℚ) : Bool := decide (1 ≤ s) && decide (s ≤ 60)

/-- `updateGameSettings` (games.ts), including the zod validation of the
optional arguments at the mutation boundary (`zCustomMutation`); the
handler then re-checks the same schemas via `safeParse` after the
started-game precondition check, exactly as in the source.  Applying the
collected `updates` object via one `ctx.db.patch` equals applying the
supplied fields in sequence. -/
def updateGameSettings (pool : Pool) (gid : Nat) (rr : Option Int)
    (spq : Option ℚ) (pn : Option (PlayerId × String)) (db : DB) :
    Except Err DB :=
  if !((match rr with | none => true | some n => validRounds pool n) &&
       (match spq with | none => true | some s => validSeconds s)) then
    .error .invalidArgs
  else match getGame db gid with
  | none => .error .gameNotFound
  | some game =>
    if game.started then .error .settingsAfterStart
    else if (match rr with | none => false | some n => !(validRounds pool n))
      then .error .invalidArgs
    else if (match spq with | none => false | some s => !(validSeconds s))
      then .error .invalidArgs
    else
      let g1 := match rr with
        | none => game
        | some n => { game with roundsRemaining := n }
      let g2 := match spq with
        | none => g1
        | some s => { g1 with secondsPerQuestion := s }
      let g3 := match pn with
        | none => g2
        | some p => { g2 with players := upsert g2.players p.1 p.2 }
      .ok (setGame db gid g3)

/-- `startGame` (games.ts); the zero-delay tick it schedules is carried out
by the scheduler and does not touch the stored state. -/
def startGame (gid : Nat) (db : DB) : Except Err DB :=
  match getGame db gid with
  | none => .error .gameNotFound
  | some game =>
    if game.started then .error .gameAlreadyStarted
    else if game.roundsRemaining ≤ 0 then .error .noRoundsRemaining
    else .ok (setGame db gid { game with started := true })

/-- lodash `_.sample`: a uniformly random element of the list, `undefined`
on the empty list; the random draw is modelled by the index `pick`. -/
def sample {α : Type} (l : List α) (pick : Nat) : Option α :=
  l.get? (pick % l.length)

/-- `ctx.db.delete(roundId)` on the `currentRounds` table. -/
def deleteRound (db : DB) (rid : Nat) : DB :=
  { db with currentRounds := db.currentRounds.filter (fun r => !(r.id == rid)) }

/-- `ctx.db.patch(roundId, { guesses })` on the `currentRounds` table:
only the `guesses` field of the addressed row changes. -/
def patchRoundGuesses (db : DB) (rid : Nat) (gs : List (PlayerId × ℚ)) : DB :=
  let f := fun (r : CurrentRound) =>
    if r.id == rid then { r with guesses := gs } else r
  { db with currentRounds := db.currentRounds.map f }

/-- `tickGame` (games.ts).  `Date.now()` is the parameter `now` (in ms) and
the random choice inside `_.sample` is the parameter `pick`; the
`ctx.scheduler.runAfter` re-arming calls do not touch the stored state and
are not modelled.  A missing game is logged and the tick returns without
changes; `_.sample` returning `undefined` (exhausted pool) makes
`fullQuestions.get(undefined)` return `undefined`, which throws
"Internal error: Question not found". -/
def tickGame (pool : Pool) (now : ℚ) (pick : Nat) (gid : Nat) (db : DB) :
    Except Err DB :=
  match getGame db gid with
  | none => .ok db
  | some game =>
    if !game.started then .error .gameNotStarted
    else match uniqueRound db gid with
    | .error e => .error e
    | .ok (some cr) =>
      match poolGet pool cr.question.text with
      | none => .error .questionNotFound
      | some q =>
        .ok (deleteRound
          (setGame db gid
            { game with finishedRounds :=
                game.finishedRounds ++ [⟨cr.question, q.answer, cr.guesses⟩] })
          cr.id)
    | .ok none =>
      if game.roundsRemaining ≤ 0 then .ok db
      else
        match sample ((poolTexts pool).filter (fun t =>
            !((game.finishedRounds.map
              (fun r => r.question.text)).contains t))) pick with
        | none => .error .questionNotFound
        | some t =>
          match poolGet pool t with
          | none => .error .questionNotFound
          | some q =>
            .ok (setGame
              { db with
                  currentRounds := db.currentRounds ++
                    [{ id := db.nextId
                       gameId := gid
                       question := ⟨t, q.left, q.right⟩
                       guesses := game.players.map (fun p => (p.1, (1 : ℚ)/2))
                       endsAtMs := now + game.secondsPerQuestion * 1000 }]
                  nextId := db.nextId + 1 }
              gid { game with roundsRemaining := game.roundsRemaining - 1 })

/-- `setPlayerGuess` (games.ts), including the zod validation of `guess`
(`gamePlayerGuessSchema`, `0 ≤ guess ≤ 1`) at the mutation boundary.
`Err.typeError` models the JS `TypeError` raised by reading `.question` of
`undefined` when the finished-round history is empty. -/
def setPlayerGuess (gid : Nat) (playerId : PlayerId) (questionText : String)
    (guess : ℚ) (db : DB) : Except Err DB :=
  if !(decide (0 ≤ guess) && decide (guess ≤ 1)) then .error .invalidArgs
  else match uniqueRound db gid with
  | .error e => .error e
  | .ok none =>
    match getGame db gid with
    | none => .error .gameNotFound
    | some game =>
      match game.finishedRounds.getLast? with
      | none => .error .typeError
      | some lfr =>
        if !(lfr.question.text == questionText) then
          .error .questionTextMismatch
        else
          .ok (setGame db gid
            { game with finishedRounds := game.finishedRounds.dropLast ++
                [{ lfr with guesses := upsert lfr.guesses playerId guess }] })
  | .ok (some cr) =>
    if !(cr.question.text == questionText) then .error .questionTextMismatch
    else .ok (patchRoundGuesses db cr.id (upsert cr.guesses playerId guess))

/-- `resetGame` (games.ts): a single `ctx.db.patch` of three fields; a
patch of a missing document throws, modelled as `gameNotFound`.  The
`currentRounds` table is untouched. -/
def resetGame (pool : Pool) (gid : Nat) (db : DB) : Except Err DB :=
  match getGame db gid with
  | none => .error .gameNotFound
  | some game =>
    .ok (setGame db gid
      { game with
          started := false
          roundsRemaining := min DEFAULT_N_ROUNDS (pool.length : Int)
          finishedRounds := [] })

/-- The empty deployment: no games, no rounds. -/
def initDB : DB := { games := [], currentRounds := [], nextId := 0 }

/-- One committed operation of the backend.  An erroring handler rolls its
transaction back and commits nothing, so only `.ok` results relate two
states. -/
inductive Step (pool : Pool) : DB → DB → Prop
  | create (cands : List String) (pid : PlayerId) (db db2 : DB) (gid : Nat) :
      createGame pool cands pid db = .ok (db2, gid) → Step pool db db2
  | join (q : String) (pid : PlayerId) (db db2 : DB) (gid : Nat) :
      joinGame q pid db = .ok (db2, gid) → Step pool db db2
  | leave (gid : Nat) (pid : PlayerId) (db db2 : DB) (gid2 : Nat) :
      leaveGame gid pid db = .ok (db2, gid2) → Step pool db db2
  | settings (gid : Nat) (rr : Option Int) (spq : Option ℚ)
      (pn : Option (PlayerId × String)) (db db2 : DB) :
      updateGameSettings pool gid rr spq pn db = .ok db2 → Step pool db db2
  | start (gid : Nat) (db db2 : DB) :
      startGame gid db = .ok db2 → Step pool db db2
  | tick (now : ℚ) (pick : Nat) (gid : Nat) (db db2 : DB) :
      tickGame pool now pick gid db = .ok db2 → Step pool db db2
  | guess (gid : Nat) (pid : PlayerId) (qt : String) (g : ℚ) (db db2 : DB) :
      setPlayerGuess gid pid qt g db = .ok db2 → Step pool db db2
  | reset (gid : Nat) (db db2 : DB) :
      resetGame pool gid db = .ok db2 → Step pool db db2

/-- The states reachable from the empty deployment by committed
operations. -/
inductive Reachable (pool : Pool) : DB → Prop
  | init : Reachable pool initDB
  | step (db db2 : DB) : Reachable pool db → Step pool db db2 →
      Reachable pool db2

/-- The schema invariant: at most one `currentRounds` row per game. -/
def AtMostOneRound (db : DB) : Prop :=
  ∀ gid : Nat, (roundsFor db gid).length ≤ 1

/-- A two-question pool for evaluating the theorems on concrete data. -/
def poolW : Pool :=
  [("Q1", { left := "no", right := "yes", answer := true }),
   ("Q2", { left := "lo", right := "hi", answer := false })]

/-- A started concrete game. -/
def gameW : Game :=
  { quickId := "ABCD"
    started := true
    roundsRemaining := 2
    secondsPerQuestion := 6
    players := [("playerAAA1", "Alice")]
    finishedRounds := [] }

/-- A store holding `gameW` and no current round. -/
def dbW : DB := { games := [(0, gameW)], currentRounds := [], nextId := 1 }

/-- A live round of `gameW` on question Q1. -/
def roundW : CurrentRound :=
  { id := 5
    gameId := 0
    question := { text := "Q1", left := "no", right := "yes" }
    guesses := [("playerAAA1", 1/2)]
    endsAtMs := 6000 }

/-- A store holding `gameW` with `roundW` open. -/
def dbW2 : DB := { games := [(0, gameW)], currentRounds := [roundW], nextId := 6 }

/-- A lobby-state copy of `gameW`. -/
def gameL : Game := { gameW with started := false }

/-- A store holding `gameL` in the lobby with no current round. -/
def dbL : DB := { games := [(0, gameL)], currentRounds := [], nextId := 1 }

lemma logb_two_half : Real.logb 2 (1/2 : ℝ) = -1 := by
  rw [show (1/2 : ℝ) = 2⁻¹ by norm_num, Real.logb_inv,
    Real.logb_self_eq_one (by norm_num)]

lemma logb_two_quarter : Real.logb 2 (1/4 : ℝ) = -2 := by
  rw [show (1/4 : ℝ) = ((2 : ℝ) ^ (2 : ℕ))⁻¹ by norm_num, Real.logb_inv,
    Real.logb_pow, Real.logb_self_eq_one (by norm_num)]
  norm_num

lemma scoreGuess_quarter_true : scoreGuess (1/4) true = -100 := by
  show 100 * (1 + Real.logb 2 (1/4 : ℝ)) = -100
  rw [logb_two_quarter]; norm_num

lemma scoreGuess_threequarters_false : scoreGuess (3/4) false = -100 := by
  show 100 * (1 + Real.logb 2 (1 - (3/4) : ℝ)) = -100
  rw [show (1 : ℝ) - 3/4 = 1/4 by norm_num, logb_two_quarter]; norm_num

lemma scoreGuess_half_true : scoreGuess (1/2) true = 0 := by
  show 100 * (1 + Real.logb 2 (1/2 : ℝ)) = 0
  rw [logb_two_half]; norm_num

lemma scoreGuess_half_false : scoreGuess (1/2) false = 0 := by
  show 100 * (1 + Real.logb 2 (1 - (1/2) : ℝ)) = 0
  rw [show (1 : ℝ) - 1/2 = 1/2 by norm_num, logb_two_half]; norm_num

lemma contains_singleton (a t : String) :
    ([a] : List String).contains t = (t == a) := by
  by_cases h : t = a <;> simp [List.contains_cons, h]

lemma find?_map_update {l : List (Nat × Game)} {gid : Nat} (g : Game)
    (h : (l.find? (fun e => e.1 == gid)).isSome) :
    (l.map (fun e => if e.1 == gid then (gid, g) else e)).find?
      (fun e => e.1 == gid) = some (gid, g) := by
  induction l with
  | nil => simp at h
  | cons e tl ih =>
    by_cases he : e.1 = gid
    · simp [List.find?_cons, he]
    · have hb : (e.1 == gid) = false := by simp [he]
      simp only [List.map_cons, hb, if_false, List.find?_cons, Bool.false_eq_true]
      apply ih
      simpa [List.find?_cons, hb] using h

lemma getGame_setGame_self {db : DB} {gid : Nat} {g0 : Game} (g : Game)
    (h : getGame db gid = some g0) :
    getGame (setGame db gid g) gid = some g := by
  unfold getGame setGame
  have hs : (db.games.find? (fun e => e.1 == gid)).isSome := by
    unfold getGame at h
    cases hf : db.games.find? (fun e => e.1 == gid) with
    | none => rw [hf] at h; simp at h
    | some e => simp
  rw [find?_map_update g hs]
  rfl

lemma roundsFor_setGame (db : DB) (gid gid2 : Nat) (g : Game) :
    roundsFor (setGame db gid g) gid2 = roundsFor db gid2 := rfl

lemma roundsFor_deleteRound (db : DB) (rid : Nat) (gid : Nat) :
    roundsFor (deleteRound db rid) gid
      = (roundsFor db gid).filter (fun r => !(r.id == rid)) := by
  simp only [roundsFor, deleteRound, List.filter_filter]
  apply List.filter_congr
  intro r _
  rw [Bool.and_comm]

lemma filter_ne_single_nonempty {l : List String} {a : String}
    (hnd : l.Nodup) (hlen : 2 ≤ l.length) :
    l.filter (fun t => !(t == a)) ≠ [] := by
  intro hemp
  have hall : ∀ t ∈ l, t = a := by
    intro t htl
    by_contra hne
    have hmem : t ∈ l.filter (fun t => !(t == a)) := by
      rw [List.mem_filter]
      exact ⟨htl, by simp [hne]⟩
    rw [hemp] at hmem
    simp at hmem
  match l, hnd, hlen with
  | t1 :: t2 :: rest, hnd, _ =>
    have h1 := hall t1 (by simp)
    have h2 := hall t2 (by simp)
    rw [List.nodup_cons] at hnd
    exact hnd.1 (by simp [h1, h2])

lemma tickGame_closes {pool : Pool} {db : DB} {gid : Nat} {game : Game}
    {cr : CurrentRound} {q : Question} (now : ℚ) (pick : Nat)
    (hget : getGame db gid = some game)
    (hstarted : game.started = true)
    (hround : roundsFor db gid = [cr])
    (hq : poolGet pool cr.question.text = some q) :
    tickGame pool now pick gid db = .ok (deleteRound
      (setGame db gid { game with finishedRounds :=
          game.finishedRounds ++ [⟨cr.question, q.answer, cr.guesses⟩] })
      cr.id) := by
  have hur : uniqueRound db gid = .ok (some cr) := by
    unfold uniqueRound; rw [hround]
  unfold tickGame
  simp only [hget, hstarted, hur, hq, Bool.not_true, if_false]
  simp

lemma tickGame_gameover {db : DB} {gid : Nat} {game : Game} (pool : Pool)
    (now : ℚ) (pick : Nat)
    (hget : getGame db gid = some game)
    (hstarted : game.started = true)
    (hnoround : roundsFor db gid = [])
    (hrr : game.roundsRemaining ≤ 0) :
    tickGame pool now pick gid db = .ok db := by
  have hur : uniqueRound db gid = .ok none := by
    unfold uniqueRound; rw [hnoround]
  unfold tickGame
  simp only [hget, hstarted, hur, hrr, Bool.not_true, if_false, if_pos]
  simp

lemma tickGame_opens {pool : Pool} {db : DB} {gid : Nat} {game : Game}
    (now : ℚ) (pick : Nat)
    (hget : getGame db gid = some game)
    (hstarted : game.started = true)
    (hnoround : roundsFor db gid = [])
    (hrr : 0 < game.roundsRemaining)
    (hunused : (poolTexts pool).filter
      (fun t => !((game.finishedRounds.map
        (fun r => r.question.text)).contains t)) ≠ []) :
    ∃ (t : String) (q : Question),
      t ∈ poolTexts pool ∧
      (game.finishedRounds.map (fun r => r.question.text)).contains t
        = false ∧
      poolGet pool t = some q ∧
      tickGame pool now pick gid db = .ok (setGame
        { db with
            currentRounds := db.currentRounds ++
              [{ id := db.nextId
                 gameId := gid
                 question := ⟨t, q.left, q.right⟩
                 guesses := game.players.map (fun p => (p.1, (1 : ℚ)/2))
                 endsAtMs := now + game.secondsPerQuestion * 1000 }]
            nextId := db.nextId + 1 }
        gid { game with roundsRemaining := game.roundsRemaining - 1 }) := by
  have hur : uniqueRound db gid = .ok none := by
    unfold uniqueRound; rw [hnoround]
  have hlen : 0 < ((poolTexts pool).filter
      (fun t => !((game.finishedRounds.map
        (fun r => r.question.text)).contains t))).length :=
    List.length_pos.mpr hunused
  have hlt : pick % ((poolTexts pool).filter
      (fun t => !((game.finishedRounds.map
        (fun r => r.question.text)).contains t))).length <
      ((poolTexts pool).filter
      (fun t => !((game.finishedRounds.map
        (fun r => r.question.text)).contains t))).length :=
    Nat.mod_lt _ hlen
  set unused := (poolTexts pool).filter
      (fun t => !((game.finishedRounds.map
        (fun r => r.question.text)).contains t)) with hunusedDef
  set t := unused.get ⟨pick % unused.length, hlt⟩ with ht
  have hsample : sample unused pick = some t := by
    simp only [sample, List.get?_eq_getElem?]
    rw [List.getElem?_eq_getElem hlt]
    rfl
  have htmem : t ∈ unused := List.get_mem _ _ _
  have htfilter := List.mem_filter.mp htmem
  have htpool : t ∈ poolTexts pool := htfilter.1
  have htnot : (game.finishedRounds.map
      (fun r => r.question.text)).contains t = false := by
    have h2 := htfilter.2
    simpa using h2
  have hfind : (pool.find? (fun e => e.1 == t)).isSome := by
    rw [List.find?_isSome]
    obtain ⟨e, he, heq⟩ := List.mem_map.mp htpool
    exact ⟨e, he, by simp [heq]⟩
  obtain ⟨et, hfq⟩ := Option.isSome_iff_exists.mp hfind
  have hpg : poolGet pool t = some et.2 := by simp [poolGet, hfq]
  have hrr' : ¬ (game.roundsRemaining ≤ 0) := by omega
  refine ⟨t, et.2, htpool, htnot, hpg, ?_⟩
  unfold tickGame
  simp only [hget, hstarted, hur, Bool.not_true, if_false, if_neg hrr']
  rw [← hunusedDef, hsample]
  simp only [hpg]
  simp

lemma roundsFor_congr {db db2 : DB} (h : db2.currentRounds = db.currentRounds)
    (gid : Nat) : roundsFor db2 gid = roundsFor db gid := by
  simp [roundsFor, h]

lemma atMostOne_of_currentRounds_eq {db db2 : DB}
    (h : db2.currentRounds = db.currentRounds) (inv : AtMostOneRound db) :
    AtMostOneRound db2 := by
  intro gid
  rw [roundsFor_congr h]
  exact inv gid

lemma createGame_currentRounds {pool : Pool} {cands : List String}
    {pid : PlayerId} {db db2 : DB} {gid : Nat}
    (h : createGame pool cands pid db = .ok (db2, gid)) :
    db2.currentRounds = db.currentRounds := by
  induction cands with
  | nil => simp [createGame] at h
  | cons c rest ih =>
    unfold createGame at h
    cases hu : uniqueGameByQuickId db c with
    | error e => rw [hu] at h; simp at h
    | ok o =>
      cases o with
      | none =>
        rw [hu] at h
        simp only [Except.ok.injEq, Prod.mk.injEq] at h
        rw [← h.1]
      | some g => rw [hu] at h; exact ih h

lemma joinGame_currentRounds {q : String} {pid : PlayerId} {db db2 : DB}
    {gid : Nat} (h : joinGame q pid db = .ok (db2, gid)) :
    db2.currentRounds = db.currentRounds := by
  unfold joinGame at h
  repeat' split at h
  all_goals simp only [Except.ok.injEq, Prod.mk.injEq, reduceCtorEq] at h
  all_goals obtain ⟨h1, h2⟩ := h
  all_goals rw [← h1]
  all_goals rfl

lemma leaveGame_currentRounds {gid : Nat} {pid : PlayerId} {db db2 : DB}
    {gid2 : Nat} (h : leaveGame gid pid db = .ok (db2, gid2)) :
    db2.currentRounds = db.currentRounds := by
  unfold leaveGame at h
  repeat' split at h
  all_goals simp only [Except.ok.injEq, Prod.mk.injEq, reduceCtorEq] at h
  all_goals obtain ⟨h1, h2⟩ := h
  all_goals rw [← h1]
  all_goals rfl

lemma updateGameSettings_currentRounds {pool : Pool} {gid : Nat}
    {rr : Option Int} {spq : Option ℚ} {pn : Option (PlayerId × String)}
    {db db2 : DB} (h : updateGameSettings pool gid rr spq pn db = .ok db2) :
    db2.currentRounds = db.currentRounds := by
  unfold updateGameSettings at h
  repeat' split at h
  all_goals simp only [Except.ok.injEq, reduceCtorEq] at h
  all_goals rw [← h]
  all_goals rfl

lemma startGame_currentRounds {gid : Nat} {db db2 : DB}
    (h : startGame gid db = .ok db2) :
    db2.currentRounds = db.currentRounds := by
  unfold startGame at h
  repeat' split at h
  all_goals simp only [Except.ok.injEq, reduceCtorEq] at h
  all_goals rw [← h]
  all_goals rfl

lemma resetGame_currentRounds {pool : Pool} {gid : Nat} {db db2 : DB}
    (h : resetGame pool gid db = .ok db2) :
    db2.currentRounds = db.currentRounds := by
  unfold resetGame at h
  repeat' split at h
  all_goals simp only [Except.ok.injEq, reduceCtorEq] at h
  all_goals rw [← h]
  all_goals rfl

lemma uniqueRound_none {db : DB} {gid : Nat}
    (h : uniqueRound db gid = .ok none) : roundsFor db gid = [] := by
  rcases hr : roundsFor db gid with _ | ⟨r, rest⟩
  · rfl
  · rcases rest with _ | ⟨r2, rest2⟩
    · unfold uniqueRound at h; rw [hr] at h; simp at h
    · unfold uniqueRound at h; rw [hr] at h; simp at h

lemma roundsFor_patchRoundGuesses_length (db : DB) (rid : Nat)
    (gs : List (PlayerId × ℚ)) (gid : Nat) :
    (roundsFor (patchRoundGuesses db rid gs) gid).length
      = (roundsFor db gid).length := by
  simp only [roundsFor, patchRoundGuesses]
  rw [← List.countP_eq_length_filter, ← List.countP_eq_length_filter,
    List.countP_map]
  apply List.countP_congr
  intro r _
  by_cases hr : r.id == rid <;> simp [hr, Function.comp]

lemma setPlayerGuess_preserves_atMostOne {gid : Nat} {pid : PlayerId}
    {qt : String} {g : ℚ} {db db2 : DB}
    (h : setPlayerGuess gid pid qt g db = .ok db2)
    (inv : AtMostOneRound db) : AtMostOneRound db2 := by
  unfold setPlayerGuess at h
  repeat' split at h
  all_goals simp only [Except.ok.injEq, reduceCtorEq] at h
  all_goals rw [← h]
  · exact atMostOne_of_currentRounds_eq rfl inv
  · intro g2
    rw [roundsFor_patchRoundGuesses_length]
    exact inv g2

lemma tickGame_preserves_atMostOne {pool : Pool} {now : ℚ} {pick : Nat}
    {gid : Nat} {db db2 : DB} (h : tickGame pool now pick gid db = .ok db2)
    (inv : AtMostOneRound db) : AtMostOneRound db2 := by
  unfold tickGame at h
  split at h
  · -- game missing: the tick logs and returns with no change
    injection h with h
    rw [← h]
    exact inv
  · rename_i game heq
    split at h
    · simp at h
    · split at h
      · simp at h
      · -- closing branch
        rename_i cr hu
        split at h
        · simp at h
        · rename_i q hq
          injection h with h
          rw [← h]
          intro g2
          rw [roundsFor_deleteRound, roundsFor_setGame]
          calc ((roundsFor db g2).filter
                  (fun r => !(r.id == cr.id))).length
              ≤ (roundsFor db g2).length := List.length_filter_le _ _
            _ ≤ 1 := inv g2
      · -- no current round: game over or opening branch
        rename_i hu
        have hr0 : roundsFor db gid = [] := uniqueRound_none hu
        split at h
        · injection h with h
          rw [← h]
          exact inv
        · split at h
          · simp at h
          · split at h
            · simp at h
            · injection h with h
              rw [← h]
              intro g2
              rw [roundsFor_setGame]
              show ((db.currentRounds ++ [_]).filter
                (fun r : CurrentRound => r.gameId == g2)).length ≤ 1
              rw [List.filter_append]
              by_cases hgg : gid = g2
              · subst hgg
                have hemp : db.currentRounds.filter
                    (fun r => r.gameId == gid) = [] := hr0
                rw [hemp]
                simp
              · have hb : (gid == g2) = false := by simp [hgg]
                simp only [List.filter_cons, List.filter_nil, hb,
                  Bool.false_eq_true, if_false, List.append_nil]
                exact inv g2

/-- Claim C6: the scoring function is `100 * (1 + log2 p)` with `p = guess`
when the outcome is true and `p = 1 - guess` otherwise; consequently a 0.5
guess scores 0 under either outcome and a fully-confident correct guess
scores 100. -/
theorem scoreGuess_formula_and_anchors :
    (∀ (g : ℝ) (o : Bool),
        scoreGuess g o = 100 * (1 + Real.logb 2 (if o then g else 1 - g))) ∧
    scoreGuess (1/2) true = 0 ∧ scoreGuess (1/2) false = 0 ∧
    scoreGuess 1 true = 100 ∧ scoreGuess 0 false = 100 := by
  refine ⟨fun g o => rfl, ?_, ?_, ?_, ?_⟩
  · show 100 * (1 + Real.logb 2 (1/2 : ℝ)) = 0
    rw [logb_two_half]; norm_num
  · show 100 * (1 + Real.logb 2 (1 - (1/2) : ℝ)) = 0
    rw [show (1 : ℝ) - 1/2 = 1/2 by norm_num, logb_two_half]; norm_num
  · show 100 * (1 + Real.logb 2 (1 : ℝ)) = 100
    rw [Real.logb_one]; norm_num
  · show 100 * (1 + Real.logb 2 (1 - (0 : ℝ))) = 100
    rw [show (1 : ℝ) - 0 = 1 by norm_num, Real.logb_one]; norm_num

/-- Claim C7, counterexample: the quantity
`score(g, true) + score(1-g, false)` is NOT the same for every `g` — it is
`-200` at `g = 1/4` but `0` at `g = 1/2`, so the claimed symmetry law fails
as stated. -/
theorem scoreGuess_sum_not_constant :
    scoreGuess (1/4) true + scoreGuess (3/4) false ≠
      scoreGuess (1/2) true + scoreGuess (1/2) false := by
  rw [scoreGuess_quarter_true, scoreGuess_threequarters_false,
    scoreGuess_half_true, scoreGuess_half_false]
  norm_num

/-- Claim C7, amended: the symmetry the code actually satisfies is
`score(g, true) = score(1-g, false)` for every `g`; in particular
`score(0.3, false) = score(0.7, true)`. -/
theorem scoreGuess_mirror_symmetry :
    (∀ g : ℝ, scoreGuess g true = scoreGuess (1 - g) false) ∧
    scoreGuess (3/10) false = scoreGuess (7/10) true := by
  constructor
  · intro g
    simp [scoreGuess]
  · simp [scoreGuess]
    norm_num

/-- Claim C1: on a started game with no current round and `roundsRemaining > 0`, a
tick creates exactly one current round — its question text is drawn from the
pool and is not among the finished rounds' texts, its guess map seeds every
currently-listed player at 0.5, and its deadline is `now +
secondsPerQuestion` seconds — and the same step decrements `roundsRemaining`
by exactly one. -/
theorem tick_opens_round_correctly (pool : Pool) (db : DB) (gid : Nat)
    (game : Game) (now : ℚ) (pick : Nat)
    (hget : getGame db gid = some game)
    (hstarted : game.started = true)
    (hnoround : roundsFor db gid = [])
    (hrr : 0 < game.roundsRemaining)
    (hunused : (poolTexts pool).filter
      (fun t => !((game.finishedRounds.map
        (fun r => r.question.text)).contains t)) ≠ []) :
    ∃ (t : String) (q : Question),
      t ∈ poolTexts pool ∧
      (game.finishedRounds.map (fun r => r.question.text)).contains t
        = false ∧
      poolGet pool t = some q ∧
      tickGame pool now pick gid db = .ok (setGame
        { db with
            currentRounds := db.currentRounds ++
              [{ id := db.nextId
                 gameId := gid
                 question := ⟨t, q.left, q.right⟩
                 guesses := game.players.map (fun p => (p.1, (1 : ℚ)/2))
                 endsAtMs := now + game.secondsPerQuestion * 1000 }]
            nextId := db.nextId + 1 }
        gid { game with roundsRemaining := game.roundsRemaining - 1 }) :=
  tickGame_opens now pick hget hstarted hnoround hrr hunused

theorem tick_opens_round_correctly_witness :
    (getGame dbW 0 = some gameW ∧ gameW.started = true ∧
     roundsFor dbW 0 = [] ∧ 0 < gameW.roundsRemaining ∧
     (poolTexts poolW).filter
       (fun t => !((gameW.finishedRounds.map
         (fun r => r.question.text)).contains t)) ≠ []) ∧
    (∃ (t : String) (q : Question),
      t ∈ poolTexts poolW ∧
      (gameW.finishedRounds.map (fun r => r.question.text)).contains t
        = false ∧
      poolGet poolW t = some q ∧
      tickGame poolW 0 0 0 dbW = .ok (setGame
        { dbW with
            currentRounds := dbW.currentRounds ++
              [{ id := dbW.nextId
                 gameId := 0
                 question := ⟨t, q.left, q.right⟩
                 guesses := gameW.players.map (fun p => (p.1, (1 : ℚ)/2))
                 endsAtMs := 0 + gameW.secondsPerQuestion * 1000 }]
            nextId := dbW.nextId + 1 }
        0 { gameW with roundsRemaining := gameW.roundsRemaining - 1 })) :=
  ⟨⟨by rfl, by rfl, by rfl, by decide, by decide⟩,
   tick_opens_round_correctly poolW dbW 0 gameW 0 0 (by rfl) (by rfl)
     (by rfl) (by decide) (by decide)⟩

/-- Claim C2: on a started game with a current round, a tick appends exactly the
entry {question snapshot, pool answer, accumulated guesses} at the end of
the finished-round history (earlier entries kept in order), deletes the
current-round record, and changes nothing else on the game — in particular
`roundsRemaining` is untouched by the closing branch. -/
theorem tick_closes_round_correctly (pool : Pool) (db : DB) (gid : Nat)
    (game : Game) (cr : CurrentRound) (q : Question) (now : ℚ) (pick : Nat)
    (hget : getGame db gid = some game)
    (hstarted : game.started = true)
    (hround : roundsFor db gid = [cr])
    (hq : poolGet pool cr.question.text = some q) :
    ∃ db2 : DB,
      tickGame pool now pick gid db = .ok db2 ∧
      getGame db2 gid = some { game with finishedRounds :=
        game.finishedRounds ++ [⟨cr.question, q.answer, cr.guesses⟩] } ∧
      db2.currentRounds = db.currentRounds.filter (fun r => !(r.id == cr.id)) ∧
      db2.games = (setGame db gid { game with finishedRounds :=
        game.finishedRounds ++ [⟨cr.question, q.answer, cr.guesses⟩] }).games ∧
      db2.nextId = db.nextId := by
  refine ⟨_, tickGame_closes now pick hget hstarted hround hq, ?_, rfl, rfl, rfl⟩
  exact getGame_setGame_self _ hget

theorem tick_closes_round_correctly_witness :
    (getGame dbW2 0 = some gameW ∧ gameW.started = true ∧
     roundsFor dbW2 0 = [roundW] ∧
     poolGet poolW roundW.question.text =
       some { left := "no", right := "yes", answer := true }) ∧
    (∃ db2 : DB,
      tickGame poolW 0 0 0 dbW2 = .ok db2 ∧
      getGame db2 0 = some { gameW with finishedRounds :=
        gameW.finishedRounds ++ [⟨roundW.question, true, roundW.guesses⟩] } ∧
      db2.currentRounds = dbW2.currentRounds.filter
        (fun r => !(r.id == roundW.id)) ∧
      db2.games = (setGame dbW2 0 { gameW with finishedRounds :=
        gameW.finishedRounds ++
          [⟨roundW.question, true, roundW.guesses⟩] }).games ∧
      db2.nextId = dbW2.nextId) :=
  ⟨⟨by rfl, by rfl, by rfl, by rfl⟩,
   tick_closes_round_correctly poolW dbW2 0 gameW roundW
     { left := "no", right := "yes", answer := true } 0 0
     (by rfl) (by rfl) (by rfl) (by rfl)⟩

/-- Claim C3: starting a lobby game with `roundsRemaining = 2`, empty
history, and a duplicate-free pool of at least 2 questions, then running
two open/close tick cycles, ends with `roundsRemaining = 0`, no current
round, and exactly 2 finished rounds with distinct question texts; one more
tick in that state changes nothing. -/
theorem two_round_game_runs_to_completion (pool : Pool) (db : DB) (gid : Nat)
    (game : Game) (now1 now2 now3 now4 now5 : ℚ) (p1 p2 p3 p4 p5 : Nat)
    (hpool : 2 ≤ pool.length) (hnodup : (poolTexts pool).Nodup)
    (hget : getGame db gid = some game)
    (hlobby : game.started = false)
    (hrr : game.roundsRemaining = 2)
    (hhist : game.finishedRounds = [])
    (hnoround : roundsFor db gid = []) :
    ∃ (db1 db2 db3 db4 db5 : DB) (g5 : Game),
      startGame gid db = .ok db1 ∧
      tickGame pool now1 p1 gid db1 = .ok db2 ∧
      tickGame pool now2 p2 gid db2 = .ok db3 ∧
      tickGame pool now3 p3 gid db3 = .ok db4 ∧
      tickGame pool now4 p4 gid db4 = .ok db5 ∧
      getGame db5 gid = some g5 ∧
      g5.roundsRemaining = 0 ∧
      roundsFor db5 gid = [] ∧
      g5.finishedRounds.length = 2 ∧
      (g5.finishedRounds.map (fun r => r.question.text)).Nodup ∧
      tickGame pool now5 p5 gid db5 = .ok db5 := by
  have hlenTexts : 2 ≤ (poolTexts pool).length := by
    simpa [poolTexts] using hpool
  -- start the game
  have hrr0 : ¬ (game.roundsRemaining ≤ 0) := by omega
  have hstart : startGame gid db =
      .ok (setGame db gid { game with started := true }) := by
    unfold startGame
    rw [hget]
    simp [hlobby, hrr0]
  set game1 : Game := { game with started := true } with hgame1
  set db1 : DB := setGame db gid game1 with hdb1
  have hget1 : getGame db1 gid = some game1 := getGame_setGame_self _ hget
  have hstarted1 : game1.started = true := rfl
  have hnoround1 : roundsFor db1 gid = [] := by
    rw [roundsFor_setGame, hnoround]
  have hrr1 : 0 < game1.roundsRemaining := by
    show (0 : Int) < game.roundsRemaining
    omega
  have hunused1 : (poolTexts pool).filter
      (fun t => !((game1.finishedRounds.map
        (fun r => r.question.text)).contains t)) ≠ [] := by
    show (poolTexts pool).filter
      (fun t => !((game.finishedRounds.map
        (fun r => r.question.text)).contains t)) ≠ []
    rw [hhist]
    simp only [List.map_nil]
    intro hemp
    have : (poolTexts pool).length = 0 := by
      have := congrArg List.length hemp
      simpa using this
    omega
  -- first open
  obtain ⟨t1, q1, ht1pool, ht1not, hpg1, hstep1⟩ :=
    tickGame_opens now1 p1 hget1 hstarted1 hnoround1 hrr1 hunused1
  set cr1 : CurrentRound :=
    { id := db1.nextId
      gameId := gid
      question := ⟨t1, q1.left, q1.right⟩
      guesses := game1.players.map (fun p => (p.1, (1 : ℚ)/2))
      endsAtMs := now1 + game1.secondsPerQuestion * 1000 } with hcr1
  set dbMid1 : DB := { db1 with
      currentRounds := db1.currentRounds ++ [cr1]
      nextId := db1.nextId + 1 } with hdbMid1
  set game2 : Game :=
    { game1 with roundsRemaining := game1.roundsRemaining - 1 } with hgame2
  set db2 : DB := setGame dbMid1 gid game2 with hdb2
  have hget2 : getGame db2 gid = some game2 :=
    getGame_setGame_self _ (show getGame dbMid1 gid = some game1 from hget1)
  have hstarted2 : game2.started = true := rfl
  have hround2 : roundsFor db2 gid = [cr1] := by
    rw [roundsFor_setGame]
    show (db1.currentRounds ++ [cr1]).filter (fun r => r.gameId == gid) = [cr1]
    rw [List.filter_append]
    have h1 : db1.currentRounds.filter (fun r => r.gameId == gid) = [] :=
      hnoround1
    rw [h1]
    simp
  -- first close
  set game3 : Game := { game2 with finishedRounds :=
    game2.finishedRounds ++ [⟨cr1.question, q1.answer, cr1.guesses⟩] }
    with hgame3
  have hstep2 : tickGame pool now2 p2 gid db2 =
      .ok (deleteRound (setGame db2 gid game3) cr1.id) :=
    tickGame_closes now2 p2 hget2 hstarted2 hround2
      (show poolGet pool cr1.question.text = some q1 from hpg1)
  set db3 : DB := deleteRound (setGame db2 gid game3) cr1.id with hdb3
  have hget3 : getGame db3 gid = some game3 :=
    getGame_setGame_self _ hget2
  have hstarted3 : game3.started = true := rfl
  have hnoround3 : roundsFor db3 gid = [] := by
    rw [hdb3, roundsFor_deleteRound, roundsFor_setGame, hround2]
    simp
  have hrr3 : 0 < game3.roundsRemaining := by
    show (0 : Int) < game.roundsRemaining - 1
    omega
  have hhist3 : game3.finishedRounds =
      [⟨cr1.question, q1.answer, cr1.guesses⟩] := by
    show game.finishedRounds ++ _ = _
    rw [hhist]
    rfl
  have hunused3 : (poolTexts pool).filter
      (fun t => !((game3.finishedRounds.map
        (fun r => r.question.text)).contains t)) ≠ [] := by
    rw [hhist3]
    simp only [List.map_cons, List.map_nil]
    have hc : ∀ t : String,
        (([cr1.question.text] : List String).contains t) = (t == t1) :=
      fun t => contains_singleton t1 t
    simp only [hc]
    exact filter_ne_single_nonempty hnodup hlenTexts
  -- second open
  obtain ⟨t2, q2, ht2pool, ht2not, hpg2, hstep3⟩ :=
    tickGame_opens now3 p3 hget3 hstarted3 hnoround3 hrr3 hunused3
  set cr2 : CurrentRound :=
    { id := db3.nextId
      gameId := gid
      question := ⟨t2, q2.left, q2.right⟩
      guesses := game3.players.map (fun p => (p.1, (1 : ℚ)/2))
      endsAtMs := now3 + game3.secondsPerQuestion * 1000 } with hcr2
  set dbMid3 : DB := { db3 with
      currentRounds := db3.currentRounds ++ [cr2]
      nextId := db3.nextId + 1 } with hdbMid3
  set game4 : Game :=
    { game3 with roundsRemaining := game3.roundsRemaining - 1 } with hgame4
  set db4 : DB := setGame dbMid3 gid game4 with hdb4
  have hget4 : getGame db4 gid = some game4 :=
    getGame_setGame_self _ (show getGame dbMid3 gid = some game3 from hget3)
  have hstarted4 : game4.started = true := rfl
  have hround4 : roundsFor db4 gid = [cr2] := by
    rw [roundsFor_setGame]
    show (db3.currentRounds ++ [cr2]).filter (fun r => r.gameId == gid) = [cr2]
    rw [List.filter_append]
    have h1 : db3.currentRounds.filter (fun r => r.gameId == gid) = [] :=
      hnoround3
    rw [h1]
    simp
  -- second close
  set game5 : Game := { game4 with finishedRounds :=
    game4.finishedRounds ++ [⟨cr2.question, q2.answer, cr2.guesses⟩] }
    with hgame5
  have hstep4 : tickGame pool now4 p4 gid db4 =
      .ok (deleteRound (setGame db4 gid game5) cr2.id) :=
    tickGame_closes now4 p4 hget4 hstarted4 hround4
      (show poolGet pool cr2.question.text = some q2 from hpg2)
  set db5 : DB := deleteRound (setGame db4 gid game5) cr2.id with hdb5
  have hget5 : getGame db5 gid = some game5 :=
    getGame_setGame_self _ hget4
  have hstarted5 : game5.started = true := rfl
  have hnoround5 : roundsFor db5 gid = [] := by
    rw [hdb5, roundsFor_deleteRound, roundsFor_setGame, hround4]
    simp
  have hrr5 : game5.roundsRemaining = 0 := by
    show game.roundsRemaining - 1 - 1 = 0
    omega
  have hhist5 : game5.finishedRounds =
      [⟨cr1.question, q1.answer, cr1.guesses⟩,
       ⟨cr2.question, q2.answer, cr2.guesses⟩] := by
    show game3.finishedRounds ++ _ = _
    rw [hhist3]
    rfl
  have ht2ne : t2 ≠ t1 := by
    intro heq
    rw [hhist3] at ht2not
    simp only [List.map_cons, List.map_nil] at ht2not
    rw [contains_singleton] at ht2not
    simp [heq] at ht2not
  have hfinal : tickGame pool now5 p5 gid db5 = .ok db5 :=
    tickGame_gameover pool now5 p5 hget5 hstarted5 hnoround5 (by omega)
  refine ⟨db1, db2, db3, db4, db5, game5, hstart, hstep1, hstep2, hstep3,
    hstep4, hget5, hrr5, hnoround5, ?_, ?_, hfinal⟩
  · rw [hhist5]
    rfl
  · rw [hhist5]
    simp only [List.map_cons, List.map_nil]
    have h12 : t1 ∉ ([t2] : List String) := by
      simp only [List.mem_singleton]
      exact fun heq => ht2ne heq.symm
    exact List.nodup_cons.mpr ⟨h12, List.nodup_singleton t2⟩

/-- Claim C4: every store reachable from the empty deployment by committed
operations (create, join, leave, settings, start, tick, guess, reset) holds
at most one `currentRounds` row per game — the tick inserts a round only
after its `.unique()` lookup found none, and no other operation inserts
one. -/
theorem currentRound_unique_per_game (pool : Pool) (db : DB)
    (h : Reachable pool db) : AtMostOneRound db := by
  induction h with
  | init => intro gid; simp [initDB, roundsFor]
  | step d d2 hr hs ih =>
    cases hs with
    | create cands pid a b gid hc =>
      exact atMostOne_of_currentRounds_eq (createGame_currentRounds hc) ih
    | join q pid a b gid hc =>
      exact atMostOne_of_currentRounds_eq (joinGame_currentRounds hc) ih
    | leave gid pid a b gid2 hc =>
      exact atMostOne_of_currentRounds_eq (leaveGame_currentRounds hc) ih
    | settings gid rr spq pn a b hc =>
      exact atMostOne_of_currentRounds_eq
        (updateGameSettings_currentRounds hc) ih
    | start gid a b hc =>
      exact atMostOne_of_currentRounds_eq (startGame_currentRounds hc) ih
    | tick now pick gid a b hc =>
      exact tickGame_preserves_atMostOne hc ih
    | guess gid pid qt g a b hc =>
      exact setPlayerGuess_preserves_atMostOne hc ih
    | reset gid a b hc =>
      exact atMostOne_of_currentRounds_eq (resetGame_currentRounds hc) ih

theorem two_round_game_witness :
    (2 ≤ poolW.length ∧ (poolTexts poolW).Nodup ∧
     getGame dbL 0 = some gameL ∧ gameL.started = false ∧
     gameL.roundsRemaining = 2 ∧ gameL.finishedRounds = [] ∧
     roundsFor dbL 0 = []) ∧
    (∃ (db1 db2 db3 db4 db5 : DB) (g5 : Game),
      startGame 0 dbL = .ok db1 ∧
      tickGame poolW 0 0 0 db1 = .ok db2 ∧
      tickGame poolW 1 0 0 db2 = .ok db3 ∧
      tickGame poolW 2 0 0 db3 = .ok db4 ∧
      tickGame poolW 3 0 0 db4 = .ok db5 ∧
      getGame db5 0 = some g5 ∧
      g5.roundsRemaining = 0 ∧
      roundsFor db5 0 = [] ∧
      g5.finishedRounds.length = 2 ∧
      (g5.finishedRounds.map (fun r => r.question.text)).Nodup ∧
      tickGame poolW 4 0 0 db5 = .ok db5) :=
  ⟨⟨by decide, by decide, by rfl, by rfl, by rfl, by rfl, by rfl⟩,
   two_round_game_runs_to_completion poolW dbL 0 gameL 0 1 2 3 4 0 0 0 0 0
     (by decide) (by decide) (by rfl) (by rfl) (by rfl) (by rfl) (by rfl)⟩

theorem currentRound_unique_per_game_witness :
    Reachable poolW initDB ∧ (roundsFor initDB 0).length ≤ 1 :=
  ⟨Reachable.init, currentRound_unique_per_game poolW initDB Reachable.init 0⟩

/-- Claim C5: a guess whose question text matches neither the open round nor the
last finished round is rejected with a question-text-mismatch error; the
transaction rolls back, so nothing is stored. -/
theorem setPlayerGuess_mismatch_errors (gid : Nat) (pid : PlayerId)
    (qt : String) (g : ℚ) (db : DB) (game : Game)
    (hg : 0 ≤ g) (hg1 : g ≤ 1)
    (hget : getGame db gid = some game)
    (hmis : (∃ cr : CurrentRound,
        roundsFor db gid = [cr] ∧ cr.question.text ≠ qt) ∨
      (roundsFor db gid = [] ∧ ∃ lfr : FinishedRound,
        game.finishedRounds.getLast? = some lfr ∧
        lfr.question.text ≠ qt)) :
    setPlayerGuess gid pid qt g db = .error .questionTextMismatch := by
  unfold setPlayerGuess
  have hval : (!(decide (0 ≤ g) && decide (g ≤ 1))) = false := by
    simp [hg, hg1]
  rw [hval]
  rcases hmis with ⟨cr, hr, hne⟩ | ⟨hr, lfr, hlast, hne⟩
  · have hur : uniqueRound db gid = .ok (some cr) := by
      unfold uniqueRound; rw [hr]
    have hb : (cr.question.text == qt) = false := by simp [hne]
    simp only [Bool.false_eq_true, if_false, hur, hb, Bool.not_false, if_true]
  · have hur : uniqueRound db gid = .ok none := by
      unfold uniqueRound; rw [hr]
    have hb : (lfr.question.text == qt) = false := by simp [hne]
    simp only [Bool.false_eq_true, if_false, hur, hget, hlast, hb,
      Bool.not_false, if_true]

theorem setPlayerGuess_mismatch_witness :
    ((0 : ℚ) ≤ 1/2 ∧ (1/2 : ℚ) ≤ 1 ∧ getGame dbW2 0 = some gameW ∧
      roundsFor dbW2 0 = [roundW] ∧ roundW.question.text ≠ "QX") ∧
    setPlayerGuess 0 "playerAAA1" "QX" (1/2) dbW2 =
      .error .questionTextMismatch :=
  ⟨⟨by norm_num, by norm_num, by rfl, by rfl, by decide⟩,
   setPlayerGuess_mismatch_errors 0 "playerAAA1" "QX" (1/2) dbW2 gameW
     (by norm_num) (by norm_num) (by rfl)
     (Or.inl ⟨roundW, by rfl, by decide⟩)⟩

/-- Claim C8: once a game is started, `updateGameSettings` (with boundary-valid
arguments, in any combination) fails with the started-game precondition
error; the transaction rolls back, so the game record is unchanged. -/
theorem updateGameSettings_after_start_errors (pool : Pool) (gid : Nat)
    (rr : Option Int) (spq : Option ℚ) (pn : Option (PlayerId × String))
    (db : DB) (game : Game)
    (hvalid : ((match rr with
        | none => true
        | some n => validRounds pool n) &&
      (match spq with
        | none => true
        | some s => validSeconds s)) = true)
    (hget : getGame db gid = some game)
    (hstarted : game.started = true) :
    updateGameSettings pool gid rr spq pn db = .error .settingsAfterStart := by
  unfold updateGameSettings
  rw [hvalid]
  simp only [Bool.not_true, Bool.false_eq_true, if_false, hget, hstarted,
    if_true]

theorem updateGameSettings_after_start_witness :
    (((match (none : Option Int) with
        | none => true
        | some n => validRounds poolW n) &&
      (match (none : Option ℚ) with
        | none => true
        | some s => validSeconds s)) = true ∧
      getGame dbW 0 = some gameW ∧ gameW.started = true) ∧
    updateGameSettings poolW 0 none none none dbW =
      .error .settingsAfterStart :=
  ⟨⟨by rfl, by rfl, by rfl⟩,
   updateGameSettings_after_start_errors poolW 0 none none none dbW gameW
     (by rfl) (by rfl) (by rfl)⟩

/-- Claim C9: on an existing game, `resetGame` returns it to lobby state — started
becomes false, `roundsRemaining` is restored to `min(default, pool size)`,
the finished-round history is cleared — while the players map, the
per-question seconds, the join code, and the whole `currentRounds` table
(any open round included) are left untouched. -/
theorem resetGame_restores_lobby (pool : Pool) (gid : Nat) (db : DB)
    (game : Game) (hget : getGame db gid = some game) :
    ∃ g2 : Game,
      resetGame pool gid db = .ok (setGame db gid g2) ∧
      g2.started = false ∧
      g2.roundsRemaining = min DEFAULT_N_ROUNDS (pool.length : Int) ∧
      g2.finishedRounds = [] ∧
      g2.players = game.players ∧
      g2.secondsPerQuestion = game.secondsPerQuestion ∧
      g2.quickId = game.quickId ∧
      (setGame db gid g2).currentRounds = db.currentRounds := by
  refine ⟨{ game with
      started := false
      roundsRemaining := min DEFAULT_N_ROUNDS (pool.length : Int)
      finishedRounds := [] }, ?_, rfl, rfl, rfl, rfl, rfl, rfl, rfl⟩
  unfold resetGame
  rw [hget]

theorem resetGame_restores_lobby_witness :
    (getGame dbW2 0 = some gameW) ∧
    (∃ g2 : Game,
      resetGame poolW 0 dbW2 = .ok (setGame dbW2 0 g2) ∧
      g2.started = false ∧
      g2.roundsRemaining = min DEFAULT_N_ROUNDS ((poolW.length : Nat) : Int) ∧
      g2.finishedRounds = [] ∧
      g2.players = gameW.players ∧
      g2.secondsPerQuestion = gameW.secondsPerQuestion ∧
      g2.quickId = gameW.quickId ∧
      (setGame dbW2 0 g2).currentRounds = dbW2.currentRounds) :=
  ⟨by rfl, resetGame_restores_lobby poolW 0 dbW2 gameW (by rfl)⟩

/-- Claim C10: with no current round and an empty finished-round history, the
late-guess fallback of `setPlayerGuess` reads the last element of an empty
array and crashes (a JS `TypeError`); the call does not succeed, and the
transaction rolls back, so no stored state changes. -/
theorem setPlayerGuess_empty_history_fails (gid : Nat) (pid : PlayerId)
    (qt : String) (g : ℚ) (db : DB) (game : Game)
    (hg : 0 ≤ g) (hg1 : g ≤ 1)
    (hget : getGame db gid = some game)
    (hnoround : roundsFor db gid = [])
    (hhist : game.finishedRounds = []) :
    setPlayerGuess gid pid qt g db = .error .typeError := by
  unfold setPlayerGuess
  have hval : (!(decide (0 ≤ g) && decide (g ≤ 1))) = false := by
    simp [hg, hg1]
  rw [hval]
  have hur : uniqueRound db gid = .ok none := by
    unfold uniqueRound; rw [hnoround]
  simp only [Bool.false_eq_true, if_false, hur, hget, hhist,
    List.getLast?_nil]

theorem setPlayerGuess_empty_history_witness :
    ((0 : ℚ) ≤ 1/2 ∧ (1/2 : ℚ) ≤ 1 ∧ getGame dbW 0 = some gameW ∧
      roundsFor dbW 0 = [] ∧ gameW.finishedRounds = []) ∧
    setPlayerGuess 0 "playerAAA1" "Q1" (1/2) dbW = .error .typeError :=
  ⟨⟨by norm_num, by norm_num, by rfl, by rfl, by rfl⟩,
   setPlayerGuess_empty_history_fails 0 "playerAAA1" "Q1" (1/2) dbW gameW
     (by norm_num) (by norm_num) (by rfl) (by rfl) (by rfl)⟩

end PredictionPanic
